import Mathlib

/-!
# Verification of the apple_admin client against its specification

Shallow embedding of the admin console's client-side logic:
the axios interceptors (`src/lib/api.ts`), the auth context
(`src/unnamed/part_004`), the Products page (`src/pages/Products.tsx`)
and the Orders page (`src/pages/Orders.tsx`), together with the
list-fetch pattern shared by all resource pages.
-/

namespace AppleAdmin

/-- JSON-like runtime values, mirroring the payloads the axios client hands
to the pages.  `undefined` is JavaScript's `undefined`, produced by missing
property access. Numbers are modelled as integers (no float arithmetic is
performed on any path modelled here). -/
inductive JsValue where
  | undefined
  | null
  | bool (b : Bool)
  | num (n : Int)
  | str (s : String)
  | arr (elems : List JsValue)
  | obj (fields : List (String × JsValue))

/-- JavaScript truthiness of a `JsValue` (arrays and objects are always
truthy; the empty string and zero are falsy). -/
def truthy : JsValue → Bool
  | .undefined => false
  | .null => false
  | .bool b => b
  | .num n => n != 0
  | .str s => s != ""
  | .arr _ => true
  | .obj _ => true

/-- Property access `v[k]`.  On objects a missing key gives `undefined`; on
arrays, strings, numbers and booleans a named property access also gives
`undefined` (accessing a property of `null`/`undefined` would throw a
TypeError in JS, which never happens on the modelled paths because
`response.data` is always a materialised value). -/
def getField : JsValue → String → JsValue
  | .obj fs, k => ((fs.find? (fun f => f.1 = k)).map Prod.snd).getD .undefined
  | _, _ => .undefined

/-- The JavaScript `a || b` operator on values. -/
def jsOr (a b : JsValue) : JsValue := if truthy a then a else b

/-- `const payload = response.data.data || response.data` — the unwrap
expression every page and the auth context use on a response body
(`Products.tsx:64`, `Orders.tsx:21`, `part_004:51` and `:71`, etc.). -/
def extractPayload (respData : JsValue) : JsValue :=
  jsOr (getField respData "data") respData

/-- The backend's TransformInterceptor envelope `{ data: payload, timestamp }`. -/
def wrapEnvelope (payload timestamp : JsValue) : JsValue :=
  .obj [("data", payload), ("timestamp", timestamp)]

/-- The shapes that occur as list or detail payloads in this application:
list responses are arrays, detail responses are flat records (user, order,
product, stats) none of which carries a field named `data`. -/
def isListOrDetailPayload : JsValue → Bool
  | .arr _ => true
  | .obj fs => fs.all (fun f => f.1 != "data")
  | _ => false

/-- C8: for every list or detail response, whether delivered raw or wrapped
in an envelope `{ data: payload, timestamp }`, the client's unwrap
expression extracts the same payload: the value the page consumes equals
the underlying payload in both cases. -/
theorem envelope_unwrap_transparent (p t : JsValue)
    (hp : isListOrDetailPayload p = true) :
    extractPayload (wrapEnvelope p t) = p ∧ extractPayload p = p := by
  constructor
  · have hfield : getField (wrapEnvelope p t) "data" = p := by
      simp [wrapEnvelope, getField, List.find?]
    have htruthy : truthy p = true := by
      cases p <;> simp_all [isListOrDetailPayload, truthy]
    simp [extractPayload, jsOr, hfield, htruthy]
  · cases p with
    | arr xs => simp [extractPayload, jsOr, getField, truthy]
    | obj fs =>
        have hnone : fs.find? (fun f => f.1 = "data") = none := by
          rw [List.find?_eq_none]
          intro x hx
          have := (List.all_eq_true.mp hp) x hx
          simpa using this
        simp [extractPayload, jsOr, getField, hnone, truthy]
    | _ => simp_all [isListOrDetailPayload]

/-- Witness for C8 at a concrete list payload and a concrete detail payload. -/
theorem envelope_unwrap_transparent_witness :
    extractPayload (wrapEnvelope (.arr [.num 1, .str "x"]) (.num 99)) =
        .arr [.num 1, .str "x"] ∧
      extractPayload (.arr [.num 1, .str "x"]) = .arr [.num 1, .str "x"] :=
  envelope_unwrap_transparent (.arr [.num 1, .str "x"]) (.num 99) (by decide)

/-- JavaScript strict comparison of a value against a string literal, as in
`userData.role !== 'admin'`: true exactly when the value is that string. -/
def isStr (v : JsValue) (s : String) : Bool :=
  match v with
  | .str t => t = s
  | _ => false

/-- Client-side auth/session state touched by `login` (part_004:67-87): the
`admin_token` local-storage entry, the `admin_token` cookie (value with its
max-age in seconds), and the provider's React state. -/
structure AuthState where
  localToken : Option JsValue
  cookieToken : Option (JsValue × Nat)
  user : Option JsValue
  isAuthenticated : Bool

/-- `login(email, password)` once the POST to `/auth/login` has resolved
with body `respData` (part_004:67-87).  Returns the new state plus
`some message` when the function throws.  Both throws occur before any
storage write, so the state returned on an error path is the input state. -/
def login (respData : JsValue) (s : AuthState) : AuthState × Option String :=
  let responseData := extractPayload respData
  let access_token := getField responseData "access_token"
  let userData := getField responseData "user"
  if ¬ truthy userData then
    (s, some "Invalid response: user data missing")
  else if ¬ isStr (getField userData "role") "admin" then
    (s, some "Access denied. Admin privileges required.")
  else
    ({ localToken := some access_token,
       cookieToken := some (access_token, 7 * 24 * 60 * 60),
       user := some userData,
       isAuthenticated := true }, none)

/-- C3: `login` with a response resolving to an admin user stores the
access token in local storage and in a 7-day cookie (`max-age` 604800
seconds) and sets the state to authenticated; with a non-admin user or a
missing user payload it throws and leaves both token stores (and the rest
of the state) unchanged. -/
theorem login_admin_stores_nonadmin_atomic (respData : JsValue) (s : AuthState) :
    (truthy (getField (extractPayload respData) "user") = true →
      isStr (getField (getField (extractPayload respData) "user") "role") "admin" = true →
      login respData s =
        ({ localToken := some (getField (extractPayload respData) "access_token"),
           cookieToken := some (getField (extractPayload respData) "access_token", 604800),
           user := some (getField (extractPayload respData) "user"),
           isAuthenticated := true }, none)) ∧
    (truthy (getField (extractPayload respData) "user") = false →
      (login respData s).1 = s ∧
        (login respData s).2 = some "Invalid response: user data missing") ∧
    (isStr (getField (getField (extractPayload respData) "user") "role") "admin" = false →
      (login respData s).1 = s ∧ (login respData s).2.isSome = true) := by
  refine ⟨fun hu hr => ?_, fun hu => ?_, fun hr => ?_⟩
  · simp [login, hu, hr]
  · simp [login, hu]
  · by_cases hu : truthy (getField (extractPayload respData) "user") = true
    · simp [login, hu, hr]
    · simp at hu
      simp [login, hu]

/-- Witness for C3: a wrapped admin login response succeeds and stores the
token; a raw customer-role response fails and leaves the state unchanged. -/
theorem login_admin_stores_nonadmin_atomic_witness :
    login
        (wrapEnvelope
          (.obj [("access_token", .str "tok"),
                 ("user", .obj [("id", .str "1"), ("role", .str "admin")])])
          (.num 0))
        ⟨none, none, none, false⟩ =
      ({ localToken := some (.str "tok"),
         cookieToken := some (.str "tok", 604800),
         user := some (.obj [("id", .str "1"), ("role", .str "admin")]),
         isAuthenticated := true }, none) ∧
    (login (.obj [("access_token", .str "tok2"),
                  ("user", .obj [("role", .str "customer")])])
        ⟨none, none, none, false⟩).1 =
      ⟨none, none, none, false⟩ := by
  constructor
  · exact (login_admin_stores_nonadmin_atomic
      (wrapEnvelope
        (.obj [("access_token", .str "tok"),
               ("user", .obj [("id", .str "1"), ("role", .str "admin")])])
        (.num 0)) ⟨none, none, none, false⟩).1 (by decide) (by decide)
  · exact ((login_admin_stores_nonadmin_atomic
      (.obj [("access_token", .str "tok2"),
             ("user", .obj [("role", .str "customer")])])
      ⟨none, none, none, false⟩).2.2 (by decide)).1

/-- Browser-level state the 401 response interceptor touches (api.ts:29-43):
the local-storage token, the `admin_token` cookie, and the location. -/
structure ClientState where
  localToken : Option String
  cookieToken : Option String
  pathname : String

/-- The axios response interceptor's error branch for an HTTP 401
(api.ts:32-39): remove the local-storage token, expire the `admin_token`
cookie, and set `window.location.href = '/login'` unless the page is
already there.  The returned flag records whether a navigation happened. -/
def on401 (s : ClientState) : ClientState × Bool :=
  let s1 : ClientState := { s with localToken := none, cookieToken := none }
  if s.pathname ≠ "/login" then ({ s1 with pathname := "/login" }, true) else (s1, false)

/-- C2: a 401 response clears the stored token and cookie and navigates to
`/login`; navigation occurs exactly when the page is not already on
`/login`, and a second 401 arriving in the resulting state changes nothing
and performs no re-navigation. -/
theorem response401_clears_and_redirects (s : ClientState) :
    (on401 s).1.localToken = none ∧
    (on401 s).1.cookieToken = none ∧
    (on401 s).1.pathname = "/login" ∧
    (on401 s).2 = decide (s.pathname ≠ "/login") ∧
    on401 (on401 s).1 = ((on401 s).1, false) := by
  by_cases h : s.pathname = "/login" <;> simp [on401, h]

/-- JavaScript truthiness of `localStorage.getItem` results: `null` and the
empty string are falsy. -/
def jsStrTruthy : Option String → Bool
  | none => false
  | some s => s ≠ ""

/-- JavaScript `String.prototype.split` with a one-character separator,
acting on the character list of the string: empty pieces are kept, as in
JS (`''.split(x) = ['']`, `'a;'.split(';') = ['a','']`). -/
def splitOnChar (sep : Char) : List Char → List (List Char)
  | [] => [[]]
  | c :: cs =>
    match splitOnChar sep cs with
    | r :: rs => if c = sep then [] :: r :: rs else (c :: r) :: rs
    | [] => if c = sep then [[], []] else [[c]]

/-- JavaScript `String.prototype.trim` (restricted to ASCII whitespace,
which is all that occurs in a cookie string). -/
def trimChars (l : List Char) : List Char :=
  ((l.dropWhile Char.isWhitespace).reverse.dropWhile Char.isWhitespace).reverse

/-- `document.cookie` parsing in the request interceptor (api.ts:16-21):
split on `;`, find the first entry whose trimmed form starts with
`admin_token=`, and take the piece after the first `=` of that entry. -/
def cookieLookup (cookieStr : String) : Option String :=
  let cookies := splitOnChar ';' cookieStr.data
  match cookies.find? (fun c => List.isPrefixOf "admin_token=".data (trimChars c)) with
  | none => none
  | some c => (((splitOnChar '=' c).drop 1).head?).map List.asString

/-- The token the request interceptor ends up with (api.ts:12-22): the
local-storage value when truthy, otherwise the cookie fallback. -/
def interceptorToken (localToken : Option String) (cookieStr : String) : Option String :=
  if jsStrTruthy localToken then localToken else cookieLookup cookieStr

/-- The `Authorization` header the request interceptor attaches
(api.ts:23-25): `Bearer <token>` when the token is truthy, nothing
otherwise. -/
def requestAuthHeader (localToken : Option String) (cookieStr : String) : Option String :=
  match interceptorToken localToken cookieStr with
  | some t => if t ≠ "" then some ("Bearer " ++ t) else none
  | none => none

/-- An outgoing request configuration; the interceptor only ever touches
its `Authorization` header. -/
structure RequestConfig where
  authorization : Option String

/-- The whole request interceptor (api.ts:12-27): it always returns the
config — the request is sent whether or not a token was found. -/
def requestInterceptor (localToken : Option String) (cookieStr : String)
    (config : RequestConfig) : RequestConfig :=
  { config with authorization :=
      match requestAuthHeader localToken cookieStr with
      | some h => some h
      | none => config.authorization }

/-- C9: the request interceptor attaches `Bearer <token>` from local
storage when one is there, falls back to the `admin_token` cookie when
local storage has none, and attaches no header — while still passing the
request through unchanged — when neither store holds a token. -/
theorem request_interceptor_attaches_bearer (lt : Option String) (cs : String) :
    (∀ t, lt = some t → t ≠ "" → requestAuthHeader lt cs = some ("Bearer " ++ t)) ∧
    (jsStrTruthy lt = false →
      ∀ v, cookieLookup cs = some v → v ≠ "" →
        requestAuthHeader lt cs = some ("Bearer " ++ v)) ∧
    (jsStrTruthy lt = false → (∀ v, cookieLookup cs = some v → v = "") →
      requestAuthHeader lt cs = none ∧
        requestInterceptor lt cs ⟨none⟩ = ⟨none⟩) := by
  refine ⟨fun t hlt ht => ?_, fun hlt v hv hne => ?_, fun hlt hcv => ?_⟩
  · subst hlt
    simp [requestAuthHeader, interceptorToken, jsStrTruthy, ht]
  · simp [requestAuthHeader, interceptorToken, hlt, hv, hne]
  · cases hck : cookieLookup cs with
    | none => simp [requestAuthHeader, requestInterceptor, interceptorToken, hlt, hck]
    | some v =>
        have hv : v = "" := hcv v hck
        simp [requestAuthHeader, requestInterceptor, interceptorToken, hlt, hck, hv]

/-- Witness for C9: local-storage token, cookie fallback, and the bare
no-token case at concrete stores. -/
theorem request_interceptor_attaches_bearer_witness :
    requestAuthHeader (some "tok") "" = some ("Bearer " ++ "tok") ∧
    requestAuthHeader none "theme=dark; admin_token=abc123" =
      some ("Bearer " ++ "abc123") ∧
    (requestAuthHeader none "theme=dark" = none ∧
      requestInterceptor none "theme=dark" ⟨none⟩ = ⟨none⟩) := by
  refine ⟨?_, ?_, ?_⟩
  · exact (request_interceptor_attaches_bearer (some "tok") "").1 "tok" rfl (by decide)
  · exact (request_interceptor_attaches_bearer none "theme=dark; admin_token=abc123").2.1
      (by decide) "abc123" (by decide) (by decide)
  · exact (request_interceptor_attaches_bearer none "theme=dark").2.2 (by decide)
      (by decide)

/-- State a resource page keeps around its collection: the collection
itself, the loading flag, and the rest of the page state (modal flag),
which the fetch handler does not touch. -/
structure ListPageState where
  items : List JsValue
  loading : Bool
  showModal : Bool

/-- The list-fetch-on-mount handler shared verbatim (up to endpoint and
state names) by `fetchProducts` (Products.tsx:60-72), `fetchCategories`
(part_001:36-48), `fetchOrders` (Orders.tsx:17-29), `fetchAboutUs`
(part_002:36-47) and `fetchFAQs` (part_003:38-49): on a resolved response
unwrap the envelope and keep the payload when it is an array (empty list
otherwise); on a rejected promise set the collection to the empty list;
in both cases finish loading. -/
def fetchListResolve (st : ListPageState) (result : Except Unit JsValue) : ListPageState :=
  match result with
  | .error _ => { st with items := [], loading := false }
  | .ok respData =>
      { st with
          items := match extractPayload respData with
            | .arr xs => xs
            | _ => []
          loading := false }

/-- C7: when the list fetch fails for any reason, the page's collection is
set to the empty list — whatever it held before — and the page still
finishes loading. -/
theorem fetch_failure_resets_collection (st : ListPageState) :
    (fetchListResolve st (.error ())).items = [] ∧
      (fetchListResolve st (.error ())).loading = false := by
  simp [fetchListResolve]

/-- The fields of an order other than its status, as rendered in the
detail modal (Orders.tsx:178-290). -/
structure OrderDetail where
  total : Int
  userFullName : String
  userEmail : String
  createdAt : String
  items : List JsValue
  shippingAddress : Option JsValue
  shippingMethod : Option JsValue

/-- An order as the Orders page holds it. -/
structure Order where
  id : String
  status : String
  detail : OrderDetail

/-- A network request the Orders page can issue. -/
inductive Request where
  | patchStatus (path : String) (status : String)
  | getList (path : String)

def isPatch : Request → Bool
  | .patchStatus _ _ => true
  | .getList _ => false

/-- Local state of the Orders page. -/
structure OrdersPageState where
  orders : List Order
  selectedOrder : Option Order
  showModal : Bool

/-- `updateStatus(id, status)` (Orders.tsx:31-44): PATCH
`/orders/:id/status` with body `{ status }`.  When the PATCH succeeds the
handler re-fetches the list (`refetched` is what that GET eventually
stores) and, if the detail modal currently shows this order, copies the
displayed order and overwrites only its status.  When the PATCH rejects,
nothing changes.  The second component lists the requests issued. -/
def updateStatus (id status : String) (patchOk : Bool) (refetched : List Order)
    (st : OrdersPageState) : OrdersPageState × List Request :=
  let req := Request.patchStatus ("/orders/" ++ id ++ "/status") status
  if patchOk then
    ({ st with
        orders := refetched,
        selectedOrder :=
          match st.selectedOrder with
          | some o => if o.id = id then some { o with status := status } else some o
          | none => none },
      [req, Request.getList "/orders/admin/all"])
  else (st, [req])

/-- C5: selecting `"delivered"` in a status dropdown issues exactly one
PATCH, to `/orders/:id/status` with body `{ status: "delivered" }`
(whether or not it succeeds), and when the detail modal shows that order
its displayed record is updated in place: only the status changes, and
the result does not depend on what the accompanying list re-fetch
returns (`refetched` is arbitrary and absent from the conclusion). -/
theorem select_delivered_single_patch (id : String) (o : Order)
    (refetched : List Order) (st : OrdersPageState)
    (hsel : st.selectedOrder = some o) (hid : o.id = id) :
    (updateStatus id "delivered" true refetched st).2.filter isPatch =
        [Request.patchStatus ("/orders/" ++ id ++ "/status") "delivered"] ∧
    (updateStatus id "delivered" false refetched st).2.filter isPatch =
        [Request.patchStatus ("/orders/" ++ id ++ "/status") "delivered"] ∧
    (updateStatus id "delivered" true refetched st).1.selectedOrder =
        some { o with status := "delivered" } := by
  refine ⟨?_, ?_, ?_⟩
  · simp [updateStatus, isPatch]
  · simp [updateStatus, isPatch]
  · simp [updateStatus, hsel, hid]

/-- A concrete order for the C5 witness. -/
def sampleOrder : Order :=
  { id := "ord-1", status := "shipped",
    detail := { total := 999, userFullName := "A B", userEmail := "a@b.c",
                createdAt := "2026-01-01", items := [],
                shippingAddress := none, shippingMethod := none } }

/-- Witness for C5 at a concrete order and page state. -/
theorem select_delivered_single_patch_witness :
    (updateStatus "ord-1" "delivered" true []
          { orders := [sampleOrder], selectedOrder := some sampleOrder,
            showModal := true }).2.filter isPatch =
        [Request.patchStatus "/orders/ord-1/status" "delivered"] ∧
    (updateStatus "ord-1" "delivered" true []
          { orders := [sampleOrder], selectedOrder := some sampleOrder,
            showModal := true }).1.selectedOrder =
        some { sampleOrder with status := "delivered" } := by
  have h := select_delivered_single_patch "ord-1" sampleOrder []
    { orders := [sampleOrder], selectedOrder := some sampleOrder, showModal := true }
    rfl rfl
  exact ⟨h.1, h.2.2⟩

/-- The order-status values. -/
inductive OrderStatus where
  | pending | processing | shipped | delivered | cancelled
  deriving DecidableEq

/-- The options offered by both status `<select>` controls
(Orders.tsx:129-133 and 299-303). -/
def statusOptions : List OrderStatus :=
  [.pending, .processing, .shipped, .delivered, .cancelled]

/-- Transitions a status `<select>` can issue: the select is rendered for
every order whatever its current status, so any listed option other than
the current value can be chosen (a change event fires only when the value
actually changes), and `onChange` calls `updateStatus` with it. -/
def selectCanIssue (s t : OrderStatus) : Bool := statusOptions.contains t && t != s

/-- The Close Order buttons (Orders.tsx:146-153 and 306-313): rendered
only when the status is neither delivered nor cancelled; clicking calls
`closeOrder` (Orders.tsx:63-71), which issues a transition to delivered. -/
def closeOrderCanIssue (s t : OrderStatus) : Bool :=
  (s != .delivered && s != .cancelled) && t == .delivered

/-- All status transitions the Orders page can issue. -/
def pageCanIssue (s t : OrderStatus) : Bool := selectCanIssue s t || closeOrderCanIssue s t

/-- The transition relation asserted by the claim: the chain
pending → processing → shipped → delivered, plus cancellation from any
non-terminal state. -/
def claimedTransition (s t : OrderStatus) : Bool :=
  (s == .pending && t == .processing) || (s == .processing && t == .shipped) ||
    (s == .shipped && t == .delivered) ||
    ((s != .delivered && s != .cancelled) && t == .cancelled)

/-- Counterexample to C6: the Orders page can issue the transition
delivered → pending (the select control is rendered unrestricted for
every order), which the claimed chain forbids — in particular a
transition out of the terminal state delivered is issuable. -/
theorem orders_transitions_counterexample :
    pageCanIssue .delivered .pending = true ∧
      claimedTransition .delivered .pending = false := by
  decide

/-- C6 amended: the Orders page can issue a transition from `s` to `t`
exactly when `t` differs from `s` — the status selects are unrestricted —
so no chain discipline holds and transitions out of delivered and
cancelled are issuable; only the Close Order button (→ delivered) is
limited to non-terminal states. -/
theorem orders_transitions_amended (s t : OrderStatus) :
    pageCanIssue s t = (t != s) := by
  cases s <;> cases t <;> decide

/-- `openAddModal` image-field initialisation (Products.tsx:99). -/
def openAddImages : List String := [""]

/-- `openEditModal` image-field initialisation (Products.tsx:136): the
product's images, or a single empty entry when it has none. -/
def openEditImages (productImages : List String) : List String :=
  if productImages.length > 0 then productImages else [""]

/-- `addImageField` (Products.tsx:214-219): append one empty entry. -/
def addImageField (images : List String) : List String := images ++ [""]

/-- `removeImageField` (Products.tsx:221-227): drop the entry at `index`
(`filter((_, i) => i !== index)`), restoring a single empty entry when
nothing is left. -/
def removeImageField (images : List String) (index : Nat) : List String :=
  let newImages := images.eraseIdx index
  if newImages.length > 0 then newImages else [""]

/-- `updateImageField` (Products.tsx:229-236): overwrite the entry at
`index`.  The UI passes only indices of rendered entries, so `index` is
in range (`List.set` is the identity out of range, where JS would extend
the array). -/
def updateImageField (images : List String) (index : Nat) (value : String) : List String :=
  images.set index value

/-- The image-list update `handleImageUpload` performs once the upload
POST resolves (Products.tsx:269-274): keep the non-empty current entries
and append the paths the server returned. -/
def uploadImagesUpdate (images uploadedImages : List String) : List String :=
  images.filter (fun img => img != "") ++ uploadedImages

/-- Counterexample to C10: `handleImageUpload`, applied in the state
`openAddModal` creates (a single empty entry) when the upload response
carries no image paths, leaves the images field empty — so the
"never empty" invariant is not preserved by every form operation. -/
theorem images_invariant_counterexample :
    uploadImagesUpdate openAddImages [] = ([] : List String) := by
  decide

/-- C10 amended: the images field is non-empty after `openAddModal` and
`openEditModal`, and `removeImageField`, `addImageField` and
`updateImageField` preserve non-emptiness; `handleImageUpload` preserves
it only when the upload response carries at least one path. -/
theorem images_nonempty_amended :
    openAddImages ≠ [] ∧
    (∀ productImages, openEditImages productImages ≠ []) ∧
    (∀ l i, removeImageField l i ≠ []) ∧
    (∀ l : List String, l ≠ [] → addImageField l ≠ []) ∧
    (∀ l i v, l ≠ [] → updateImageField l i v ≠ []) ∧
    (∀ l up : List String, up ≠ [] → uploadImagesUpdate l up ≠ []) := by
  refine ⟨by simp [openAddImages], fun pi => ?_, fun l i => ?_, fun l h => ?_,
    fun l i v h => ?_, fun l up h => ?_⟩
  · by_cases hp : pi.length > 0
    · simpa [openEditImages, hp] using List.length_pos.mp hp
    · simp [openEditImages, hp]
  · dsimp [removeImageField]
    by_cases hl : (l.eraseIdx i).length > 0
    · rw [if_pos hl]
      exact List.length_pos.mp hl
    · rw [if_neg hl]
      simp
  · simp [addImageField]
  · simpa [updateImageField, ← List.length_pos] using h
  · simp [uploadImagesUpdate, h]

/-- Witness for C10 amended at concrete lists. -/
theorem images_nonempty_amended_witness :
    removeImageField [""] 0 ≠ [] ∧
    addImageField [""] ≠ [] ∧
    updateImageField [""] 0 "x.png" ≠ [] ∧
    uploadImagesUpdate [""] ["up.png"] ≠ [] :=
  ⟨images_nonempty_amended.2.2.1 [""] 0,
   images_nonempty_amended.2.2.2.1 [""] (by decide),
   images_nonempty_amended.2.2.2.2.1 [""] 0 "x.png" (by decide),
   images_nonempty_amended.2.2.2.2.2 [""] ["up.png"] (by decide)⟩

/-- The character class `[a-z0-9]` of the slug regexes. -/
def isSlugChar (c : Char) : Bool := ('a' ≤ c && c ≤ 'z') || ('0' ≤ c && c ≤ '9')

/-- One global-replace pass of `/[^a-z0-9]+/g → '-'` (Products.tsx:88,
part_001:99): `inRun` records whether the previous character belonged to
a non-alphanumeric run already replaced by a hyphen, so each maximal run
emits exactly one hyphen. -/
def collapseRuns (inRun : Bool) : List Char → List Char
  | [] => []
  | c :: cs =>
    match isSlugChar c, inRun with
    | true, _ => c :: collapseRuns false cs
    | false, true => collapseRuns true cs
    | false, false => '-' :: collapseRuns true cs

/-- The `^-` half of the global replace `/(^-|-$)/g → ''`
(Products.tsx:89, part_001:100): remove one leading hyphen. -/
def dropLeadingHyphen : List Char → List Char
  | [] => []
  | c :: cs => if c = '-' then cs else c :: cs

/-- The `-$` half of `/(^-|-$)/g → ''`: remove one trailing hyphen.  (The
two alternatives of the regex never overlap except on the one-character
string `"-"`, which `^-` consumes; removing first the leading and then
the trailing hyphen gives the same result on every string.) -/
def dropTrailingHyphen : List Char → List Char
  | [] => []
  | [c] => if c = '-' then [] else [c]
  | c :: d :: cs => c :: dropTrailingHyphen (d :: cs)

/-- `generateSlug` (Products.tsx:85-90, part_001:96-101): lowercase the
name, replace each run of characters outside `[a-z0-9]` by one hyphen,
then strip a leading and a trailing hyphen.  `Char.toLower` is the ASCII
fragment of JavaScript's `toLowerCase`; outside Basic Latin the two can
differ, but such characters lowercase outside `[a-z0-9]` in both readings
and are replaced by the next step either way. -/
def generateSlug (name : String) : String :=
  ⟨dropTrailingHyphen (dropLeadingHyphen (collapseRuns false (name.data.map Char.toLower)))⟩

/-- The maximal runs of `[a-z0-9]` characters of a list, in order — the
words that survive slug derivation. -/
def slugWords (l : List Char) : List (List Char) :=
  match h : l.dropWhile (fun c => !isSlugChar c) with
  | [] => []
  | c :: cs => (c :: cs.takeWhile isSlugChar) :: slugWords (cs.dropWhile isSlugChar)
termination_by l.length
decreasing_by
  have h1 : (List.dropWhile (fun c => !isSlugChar c) l).length ≤ l.length :=
    (List.dropWhile_sublist _).length_le
  rw [h] at h1
  have h2 : (List.dropWhile isSlugChar cs).length ≤ cs.length :=
    (List.dropWhile_sublist _).length_le
  simp only [List.length_cons] at h1
  omega

/-- Joining words with single interior hyphens. -/
def joinHyphen : List (List Char) → List Char
  | [] => []
  | [w] => w
  | w :: x :: ws => w ++ '-' :: joinHyphen (x :: ws)

/-- The specification's reading of slug derivation, assembled the other
way around: the lowercased name's maximal alphanumeric runs joined by
single hyphens.  Every maximal run outside `[a-z0-9]` lying strictly
between two words becomes exactly one interior hyphen, and
leading/trailing runs leave nothing once the edge hyphens are stripped. -/
def specSlug (name : String) : String :=
  ⟨joinHyphen (slugWords (name.data.map Char.toLower))⟩

theorem slugChar_ne_hyphen {c : Char} (h : isSlugChar c = true) : c ≠ '-' := by
  rintro rfl
  exact absurd h (by decide)

theorem collapse_true_all_bad :
    ∀ l : List Char, (∀ c ∈ l, isSlugChar c = false) → collapseRuns true l = []
  | [], _ => rfl
  | c :: cs, h => by
      have hc := h c (List.mem_cons_self c cs)
      simp only [collapseRuns, hc]
      exact collapse_true_all_bad cs (fun d hd => h d (List.mem_cons_of_mem c hd))

theorem collapse_true_dropWhile :
    ∀ l : List Char,
      collapseRuns true l = collapseRuns true (l.dropWhile (fun c => !isSlugChar c))
  | [] => rfl
  | c :: cs => by
      cases hc : isSlugChar c with
      | true => simp [List.dropWhile_cons, hc]
      | false =>
          simp only [List.dropWhile_cons, hc, Bool.not_false, if_pos rfl]
          simp [collapseRuns, hc]
          exact collapse_true_dropWhile cs

theorem collapse_false_good_append :
    ∀ w rest : List Char, (∀ c ∈ w, isSlugChar c = true) →
      collapseRuns false (w ++ rest) = w ++ collapseRuns false rest
  | [], _, _ => rfl
  | c :: w, rest, h => by
      have hc := h c (List.mem_cons_self c w)
      simp only [List.cons_append, collapseRuns, hc]
      exact congrArg (List.cons c)
        (collapse_false_good_append w rest (fun d hd => h d (List.mem_cons_of_mem c hd)))

theorem collapse_true_eq_dropLeading (l : List Char) :
    collapseRuns true l = dropLeadingHyphen (collapseRuns false l) := by
  cases l with
  | nil => rfl
  | cons c cs =>
      cases hc : isSlugChar c with
      | true =>
          have hne : c ≠ '-' := slugChar_ne_hyphen hc
          simp only [collapseRuns, hc, dropLeadingHyphen, if_neg hne]
      | false =>
          simp [collapseRuns, hc, dropLeadingHyphen]

theorem dropWhile_head_false {p : Char → Bool} :
    ∀ (l : List Char) {c : Char} {cs : List Char}, l.dropWhile p = c :: cs → p c = false := by
  intro l
  induction l with
  | nil => intro c cs h; cases h
  | cons a l ih =>
      intro c cs h
      cases ha : p a with
      | true =>
          rw [List.dropWhile_cons, if_pos ha] at h
          exact ih h
      | false =>
          rw [List.dropWhile_cons, if_neg (by simp [ha])] at h
          obtain ⟨rfl, rfl⟩ : a = c ∧ l = cs := by injection h with h1 h2; exact ⟨h1, h2⟩
          exact ha

theorem dropTrailing_cons_of_ne_nil (c : Char) {cs : List Char} (h : cs ≠ []) :
    dropTrailingHyphen (c :: cs) = c :: dropTrailingHyphen cs := by
  cases cs with
  | nil => exact absurd rfl h
  | cons d ds => rfl

theorem dropTrailing_append {y : List Char} (x : List Char) (hy : y ≠ []) :
    dropTrailingHyphen (x ++ y) = x ++ dropTrailingHyphen y := by
  induction x with
  | nil => rfl
  | cons c x ih =>
      have hne : x ++ y ≠ [] := by
        intro h0
        exact hy (List.append_eq_nil.mp h0).2
      rw [List.cons_append, dropTrailing_cons_of_ne_nil c hne, ih, List.cons_append]

theorem dropTrailing_all_good :
    ∀ l : List Char, (∀ c ∈ l, isSlugChar c = true) → dropTrailingHyphen l = l
  | [], _ => rfl
  | [c], h => by
      have hne := slugChar_ne_hyphen (h c (List.mem_cons_self c []))
      simp [dropTrailingHyphen, hne]
  | c :: d :: ds, h => by
      rw [dropTrailing_cons_of_ne_nil c (by simp)]
      rw [dropTrailing_all_good (d :: ds) (fun e he => h e (List.mem_cons_of_mem c he))]

theorem slugWords_eq_nil (l : List Char)
    (h : l.dropWhile (fun c => !isSlugChar c) = []) : slugWords l = [] := by
  rw [slugWords]
  split
  · rfl
  · next c cs h2 => rw [h] at h2; cases h2

theorem slugWords_eq_cons (l : List Char) (c : Char) (cs : List Char)
    (h : l.dropWhile (fun c => !isSlugChar c) = c :: cs) :
    slugWords l = (c :: cs.takeWhile isSlugChar) :: slugWords (cs.dropWhile isSlugChar) := by
  rw [slugWords]
  split
  · next h2 => rw [h] at h2; cases h2
  · next d ds h2 =>
      rw [h] at h2
      obtain ⟨rfl, rfl⟩ : c = d ∧ cs = ds := by injection h2 with h1 h3; exact ⟨h1, h3⟩
      rfl

theorem collapse_strip_eq_join :
    ∀ n : Nat, ∀ l : List Char, l.length ≤ n →
      dropTrailingHyphen (collapseRuns true l) = joinHyphen (slugWords l) := by
  intro n
  induction n with
  | zero =>
      intro l hl
      have h0 : l = [] := List.length_eq_zero.mp (Nat.le_zero.mp hl)
      subst h0
      rw [slugWords_eq_nil [] rfl]
      rfl
  | succ n ih =>
      intro l hl
      cases hdw : l.dropWhile (fun c => !isSlugChar c) with
      | nil =>
          have hbad : ∀ c ∈ l, isSlugChar c = false := by
            intro c hc
            have h1 := List.dropWhile_eq_nil_iff.mp hdw c hc
            simpa using h1
          rw [collapse_true_all_bad l hbad, slugWords_eq_nil l hdw]
          rfl
      | cons c cs =>
          have hc : isSlugChar c = true := by
            have h1 := dropWhile_head_false l hdw
            simpa using h1
          have hlen_cs : cs.length ≤ n := by
            have h1 : (l.dropWhile (fun c => !isSlugChar c)).length ≤ l.length :=
              (List.dropWhile_sublist _).length_le
            rw [hdw] at h1
            simp only [List.length_cons] at h1
            omega
          have hwgood : ∀ d ∈ cs.takeWhile isSlugChar, isSlugChar d = true :=
            fun _ hd => List.mem_takeWhile_imp hd
          have hcgood : ∀ d ∈ c :: cs.takeWhile isSlugChar, isSlugChar d = true := by
            intro d hd
            rcases List.mem_cons.mp hd with rfl | hd2
            · exact hc
            · exact hwgood d hd2
          have hcs : collapseRuns false cs =
              cs.takeWhile isSlugChar ++ collapseRuns false (cs.dropWhile isSlugChar) := by
            conv_lhs => rw [← List.takeWhile_append_dropWhile isSlugChar cs]
            exact collapse_false_good_append _ _ hwgood
          have hcollapse : collapseRuns true l =
              c :: (cs.takeWhile isSlugChar ++
                collapseRuns false (cs.dropWhile isSlugChar)) := by
            rw [collapse_true_dropWhile l, hdw]
            simp only [collapseRuns, hc]
            rw [hcs]
          rw [hcollapse, slugWords_eq_cons l c cs hdw]
          cases hrw : (cs.dropWhile isSlugChar).dropWhile (fun c => !isSlugChar c) with
          | nil =>
              have hrbad : ∀ d ∈ cs.dropWhile isSlugChar, isSlugChar d = false := by
                intro d hd
                have h1 := List.dropWhile_eq_nil_iff.mp hrw d hd
                simpa using h1
              rw [slugWords_eq_nil _ hrw]
              cases hrc : cs.dropWhile isSlugChar with
              | nil =>
                  show dropTrailingHyphen (c :: (cs.takeWhile isSlugChar ++
                    collapseRuns false [])) = joinHyphen [c :: cs.takeWhile isSlugChar]
                  rw [show collapseRuns false ([] : List Char) = [] from rfl,
                    List.append_nil, dropTrailing_all_good _ hcgood]
                  rfl
              | cons e r2 =>
                  have he : isSlugChar e = false :=
                    hrbad e (by rw [hrc]; exact List.mem_cons_self e r2)
                  have hr2 : ∀ d ∈ r2, isSlugChar d = false := by
                    intro d hd
                    exact hrbad d (by rw [hrc]; exact List.mem_cons_of_mem e hd)
                  have hone : collapseRuns false (e :: r2) = ['-'] := by
                    simp only [collapseRuns, he]
                    rw [collapse_true_all_bad r2 hr2]
                  rw [hone, ← List.cons_append, dropTrailing_append _ (by simp),
                    show dropTrailingHyphen ['-'] = [] by simp [dropTrailingHyphen],
                    List.append_nil]
                  rfl
          | cons d ds =>
              have hrne : cs.dropWhile isSlugChar ≠ [] := by
                intro h0
                rw [h0] at hrw
                cases hrw
              obtain ⟨e, r2, hrc⟩ : ∃ e r2, cs.dropWhile isSlugChar = e :: r2 := by
                cases hcase : cs.dropWhile isSlugChar with
                | nil => exact absurd hcase hrne
                | cons e r2 => exact ⟨e, r2, rfl⟩
              have he : isSlugChar e = false := dropWhile_head_false cs hrc
              have hd : isSlugChar d = true := by
                have h1 := dropWhile_head_false (cs.dropWhile isSlugChar) hrw
                simpa using h1
              have hrw2 : r2.dropWhile (fun c => !isSlugChar c) = d :: ds := by
                rw [hrc, List.dropWhile_cons, if_pos (by simp [he])] at hrw
                exact hrw
              have hX : collapseRuns true r2 ≠ [] := by
                rw [collapse_true_dropWhile r2, hrw2]
                simp [collapseRuns, hd]
              have hct : collapseRuns true (e :: r2) = collapseRuns true r2 := by
                simp only [collapseRuns, he]
              have hcf : collapseRuns false (e :: r2) = '-' :: collapseRuns true r2 := by
                simp only [collapseRuns, he]
              have ihr : dropTrailingHyphen (collapseRuns true (e :: r2)) =
                  joinHyphen (slugWords (e :: r2)) := by
                refine ih (e :: r2) ?_
                have h2 : (cs.dropWhile isSlugChar).length ≤ cs.length :=
                  (List.dropWhile_sublist _).length_le
                rw [hrc] at h2
                simp only [List.length_cons] at h2 ⊢
                omega
              have hwords_r : slugWords (e :: r2) =
                  (d :: ds.takeWhile isSlugChar) ::
                    slugWords (ds.dropWhile isSlugChar) := by
                refine slugWords_eq_cons (e :: r2) d ds ?_
                rw [List.dropWhile_cons, if_pos (by simp [he])]
                exact hrw2
              rw [hrc, hcf, ← List.cons_append,
                dropTrailing_append _ (by simp),
                dropTrailing_cons_of_ne_nil '-' hX, ← hct, ihr, hwords_r]
              rfl

/-- C1: `generateSlug` is pure and, for every input string, equals the
specification's description — the lowercased string's maximal `[a-z0-9]`
runs joined by single hyphens, i.e. every maximal run of characters
outside `[a-z0-9]` becomes a single hyphen and the leading and trailing
hyphens are stripped — and in particular it maps `"iPhone 15 Pro!"` to
`"iphone-15-pro"`. -/
theorem generateSlug_correct :
    (∀ s : String, generateSlug s = specSlug s) ∧
      generateSlug "iPhone 15 Pro!" = "iphone-15-pro" := by
  constructor
  · intro s
    unfold generateSlug specSlug
    have h := collapse_strip_eq_join (s.data.map Char.toLower).length
      (s.data.map Char.toLower) le_rfl
    rw [collapse_true_eq_dropLeading] at h
    rw [h]
  · decide

/-- A per-language name/description translation of a product. -/
structure Translation where
  name : String
  description : String
  deriving DecidableEq

/-- The `translations` object as stored on a product record: each language
entry may be absent. -/
structure TranslationsRec where
  en : Option Translation
  ru : Option Translation
  ar : Option Translation
  deriving DecidableEq

/-- The `translations` object of the form state and of the outgoing
payload: all three languages present. -/
structure TranslationsForm where
  en : Translation
  ru : Translation
  ar : Translation
  deriving DecidableEq

/-- Product variants in the current (string) shape.  The legacy shape with
colour objects `{ id, name, hex }` that `openEditModal` normalises
(Products.tsx:124-129) is not modelled: on string entries that branch does
not fire and the lists pass through unchanged. -/
structure Variants where
  colors : List String
  storage : List String
  versions : List String
  deriving DecidableEq

/-- A product record as fetched from the backend: the `Product` interface
(Products.tsx:6-17) plus the `specs`/`variants`/`translations` fields read
through `as any` in `openEditModal`, which may be absent. -/
structure Product where
  id : String
  name : String
  slug : String
  description : Option String
  price : Int
  categoryId : Option String
  images : List String
  stock : Int
  featured : Bool
  badge : Option String
  specs : Option (List (String × String))
  variants : Option Variants
  translations : Option TranslationsRec
  deriving DecidableEq

/-- The modal form state (Products.tsx:33-53).  The source keeps `price`
and `stock` as the strings `toString()` produces and reads them back with
`Number(...) || 0`, which is the identity on the numeric values modelled
here, so the embedding keeps them numeric. -/
structure ProductForm where
  name : String
  description : String
  price : Int
  categoryId : String
  images : List String
  stock : Int
  featured : Bool
  badge : String
  specs : List (String × String)
  variants : Variants
  translations : TranslationsForm
  deriving DecidableEq

/-- `openEditModal` (Products.tsx:118-153): populate the form from the
record, defaulting absent optional fields to empty strings/objects,
substituting `[""]` for an empty image list, and filling each missing
translation language with the product's own name and description. -/
def openEditModal (p : Product) : ProductForm :=
  let fallback : Translation := { name := p.name, description := p.description.getD "" }
  { name := p.name
    description := p.description.getD ""
    price := p.price
    categoryId := p.categoryId.getD ""
    images := if p.images.length > 0 then p.images else [""]
    stock := p.stock
    featured := p.featured
    badge := p.badge.getD ""
    specs := p.specs.getD []
    variants := { colors := (p.variants.getD ⟨[], [], []⟩).colors,
                  storage := (p.variants.getD ⟨[], [], []⟩).storage,
                  versions := (p.variants.getD ⟨[], [], []⟩).versions }
    translations := { en := (p.translations.bind TranslationsRec.en).getD fallback,
                      ru := (p.translations.bind TranslationsRec.ru).getD fallback,
                      ar := (p.translations.bind TranslationsRec.ar).getD fallback } }

/-- The outgoing `dataToSend` payload of `handleSubmit`
(Products.tsx:178-191). -/
structure ProductPayload where
  name : String
  description : String
  slug : String
  images : List String
  price : Int
  stock : Int
  categoryId : Option String
  featured : Bool
  badge : Option String
  specs : List (String × String)
  variants : Variants
  translations : TranslationsForm
  deriving DecidableEq

/-- The comma-splitting, trimming and empty-filtering applied to each
variant list in `handleSubmit` (Products.tsx:166-176):
`flatMap(e => e.split(',').map(t => t.trim())).filter(e => e !== '')`. -/
def processEntries (l : List String) : List String :=
  (l.flatMap (fun e =>
      (splitOnChar ',' e.data).map (fun cs => (⟨trimChars cs⟩ : String)))).filter
    (fun e => e != "")

/-- `handleSubmit`'s payload construction (Products.tsx:160-191): carry the
form fields over, re-derive the slug from the name, drop images that are
blank after trimming, and turn empty `categoryId`/`badge` strings into
absent fields (`formData.x || undefined`). -/
def submitPayload (f : ProductForm) : ProductPayload :=
  { name := f.name
    description := f.description
    slug := generateSlug f.name
    images := f.images.filter (fun img => trimChars img.data != [])
    price := f.price
    stock := f.stock
    categoryId := if f.categoryId = "" then none else some f.categoryId
    featured := f.featured
    badge := if f.badge = "" then none else some f.badge
    specs := f.specs
    variants := { colors := processEntries f.variants.colors,
                  storage := processEntries f.variants.storage,
                  versions := processEntries f.variants.versions }
    translations := f.translations }

/-- A concrete product whose colour variant entry contains a comma. -/
def commaProduct : Product :=
  { id := "p1", name := "iPhone", slug := "iphone", description := some "d",
    price := 10, categoryId := none, images := [], stock := 3, featured := false,
    badge := none, specs := some [], variants := some ⟨["a,b"], [], []⟩,
    translations := some ⟨some ⟨"iPhone", "d"⟩, some ⟨"iPhone", "d"⟩, some ⟨"iPhone", "d"⟩⟩ }

/-- Counterexample to C4 as stated: for the product with colour variant
list `["a,b"]`, opening the edit modal and submitting unchanged sends
variant colours `["a", "b"]` — `handleSubmit` splits entries on commas —
so the outgoing payload does not reproduce the record's fields. -/
theorem edit_roundtrip_counterexample :
    commaProduct.variants = some ⟨["a,b"], [], []⟩ ∧
    (submitPayload (openEditModal commaProduct)).variants.colors = ["a", "b"] ∧
    (submitPayload (openEditModal commaProduct)).variants.colors ≠ ["a,b"] := by
  refine ⟨rfl, ?_, ?_⟩ <;> decide

theorem splitOnChar_no_sep (sep : Char) :
    ∀ l : List Char, sep ∉ l → splitOnChar sep l = [l]
  | [], _ => rfl
  | c :: cs, h => by
      have hc : c ≠ sep := fun h0 => h (h0 ▸ List.mem_cons_self c cs)
      have ih := splitOnChar_no_sep sep cs (fun h0 => h (List.mem_cons_of_mem c h0))
      simp only [splitOnChar]
      rw [ih]
      simp [if_neg hc]

theorem processEntries_id :
    ∀ l : List String,
      (∀ e ∈ l, e ≠ "" ∧ ',' ∉ e.data ∧ trimChars e.data = e.data) →
      processEntries l = l
  | [], _ => rfl
  | e :: l, h => by
      obtain ⟨hne, hcomma, htrim⟩ := h e (List.mem_cons_self e l)
      have ih := processEntries_id l (fun d hd => h d (List.mem_cons_of_mem e hd))
      simp only [processEntries] at ih ⊢
      rw [List.flatMap_cons, List.filter_append, ih,
        splitOnChar_no_sep ',' e.data hcomma]
      simp only [List.map_cons, List.map_nil, htrim]
      have heta : (⟨e.data⟩ : String) = e := rfl
      rw [heta, List.filter_cons, if_pos (by simpa using hne)]
      simp

/-- The record-side variant entries are already in submit's normal form:
non-empty, trimmed, and comma-free. -/
def entriesNormal (l : List String) : Prop :=
  ∀ e ∈ l, e ≠ "" ∧ ',' ∉ e.data ∧ trimChars e.data = e.data

/-- C4 amended: the edit-modal round trip reproduces the record in the
outgoing payload — with absent optional fields read as their form defaults
(empty description, empty specs, default variants, name/description-filled
translations) and the slug re-derived from the name — provided no image
entry is blank after trimming, every variant entry is non-empty, trimmed
and comma-free, and `categoryId`/`badge` are not present-but-empty. -/
theorem edit_roundtrip_amended (p : Product)
    (himg : ∀ img ∈ p.images, trimChars img.data ≠ [])
    (hcolors : entriesNormal (p.variants.getD ⟨[], [], []⟩).colors)
    (hstorage : entriesNormal (p.variants.getD ⟨[], [], []⟩).storage)
    (hversions : entriesNormal (p.variants.getD ⟨[], [], []⟩).versions)
    (hcat : p.categoryId ≠ some "")
    (hbadge : p.badge ≠ some "") :
    submitPayload (openEditModal p) =
      { name := p.name
        description := p.description.getD ""
        slug := generateSlug p.name
        images := p.images
        price := p.price
        stock := p.stock
        categoryId := p.categoryId
        featured := p.featured
        badge := p.badge
        specs := p.specs.getD []
        variants := p.variants.getD ⟨[], [], []⟩
        translations :=
          { en := (p.translations.bind TranslationsRec.en).getD
              ⟨p.name, p.description.getD ""⟩,
            ru := (p.translations.bind TranslationsRec.ru).getD
              ⟨p.name, p.description.getD ""⟩,
            ar := (p.translations.bind TranslationsRec.ar).getD
              ⟨p.name, p.description.getD ""⟩ } } := by
  have himages : (openEditModal p).images.filter (fun img => trimChars img.data != []) =
      p.images := by
    by_cases hpi : p.images = []
    · simp [openEditModal, hpi, trimChars]
    · have hlen : p.images.length > 0 := List.length_pos.mpr hpi
      have h1 : (openEditModal p).images = p.images := by
        simp only [openEditModal]
        rw [if_pos hlen]
      rw [h1]
      refine List.filter_eq_self.mpr ?_
      intro a ha
      simpa using himg a ha
  have hcatgood : (if (openEditModal p).categoryId = "" then none
      else some (openEditModal p).categoryId) = p.categoryId := by
    cases hpc : p.categoryId with
    | none => simp [openEditModal, hpc]
    | some c =>
        have hcne : c ≠ "" := fun h0 => hcat (by rw [hpc, h0])
        simp [openEditModal, hpc, hcne]
  have hbadgegood : (if (openEditModal p).badge = "" then none
      else some (openEditModal p).badge) = p.badge := by
    cases hpb : p.badge with
    | none => simp [openEditModal, hpb]
    | some b =>
        have hbne : b ≠ "" := fun h0 => hbadge (by rw [hpb, h0])
        simp [openEditModal, hpb, hbne]
  simp only [submitPayload, openEditModal] at himages hcatgood hbadgegood ⊢
  rw [himages, hcatgood, hbadgegood,
    processEntries_id _ hcolors, processEntries_id _ hstorage,
    processEntries_id _ hversions]

/-- A concrete product in normal form for the C4 witness. -/
def normalProduct : Product :=
  { id := "p2", name := "iPhone 15 Pro!", slug := "iphone-15-pro",
    description := some "flagship", price := 999, categoryId := some "cat1",
    images := ["/img/a.png"], stock := 5, featured := true, badge := some "New",
    specs := some [("Display", "6.1")], variants := some ⟨["Silver"], ["256GB"], []⟩,
    translations := some ⟨some ⟨"iPhone 15 Pro!", "flagship"⟩, none, none⟩ }

/-- Witness for C4 amended at a concrete in-normal-form product. -/
theorem edit_roundtrip_amended_witness :
    submitPayload (openEditModal normalProduct) =
      { name := "iPhone 15 Pro!"
        description := "flagship"
        slug := generateSlug "iPhone 15 Pro!"
        images := ["/img/a.png"]
        price := 999
        stock := 5
        categoryId := some "cat1"
        featured := true
        badge := some "New"
        specs := [("Display", "6.1")]
        variants := ⟨["Silver"], ["256GB"], []⟩
        translations := { en := ⟨"iPhone 15 Pro!", "flagship"⟩,
                          ru := ⟨"iPhone 15 Pro!", "flagship"⟩,
                          ar := ⟨"iPhone 15 Pro!", "flagship"⟩ } } :=
  edit_roundtrip_amended normalProduct (by decide)
    (by unfold entriesNormal; decide) (by unfold entriesNormal; decide)
    (by unfold entriesNormal; decide) (by decide) (by decide)

end AppleAdmin
